import Mathlib

unseal Rat.mul Rat.inv Rat.add

/-!
Verification development for `examples/nanoChatGPT/train.py`.

The script is a single linear training procedure: load a config, build a
model / optimizer / lr scheduler, loop over batches performing gradient
accumulation with an optional mixed-precision grad scaler, periodically
evaluate on a validation split, checkpoint on improvement, and finally plot
the loss curves.

The embedding below is a shallow, executable translation of that file.
External framework facilities (the pretrained model's loss surface, the
dataloaders, the AdamW update rule, the lr schedule, gradient clipping and
the scaler's growth policy) are abstracted as parameters of an `Env`
record: the training script treats them as opaque library calls, and no
claim depends on their internals.  Scalar tensor values are modelled as
rationals.  In-place mutation (the forward call writing `batch.logits` and
`batch.loss`, the optimizer updating parameters) is modelled by explicit
state passing, and every externally visible action of the script is
recorded in an event trace.
-/

namespace Train

/-- A batch produced by the dataloader: input tokens, labels, and the
`logits` / `loss` slots that the model's forward call fills in.  Tensor
contents are abstracted to rational summaries. -/
structure Batch where
  tokens : ℚ
  labels : ℚ
  logits : ℚ
  loss : ℚ
deriving DecidableEq

/-- The model: abstract parameter vector, accumulated gradients
(`none` models PyTorch's `grad = None` after `zero_grad(set_to_none=True)`),
and the train/eval mode flag of `nn.Module`. -/
structure Model where
  params : ℚ
  grads : Option ℚ
  training : Bool
deriving DecidableEq

/-- One optimizer parameter group, carrying its learning rate. -/
structure ParamGroup where
  lr : ℚ
deriving DecidableEq

/-- The AdamW optimizer: its parameter groups and an abstract internal
state (moments etc.), as exposed by `state_dict()`. -/
structure Optimizer where
  param_groups : List ParamGroup
  optState : ℚ
deriving DecidableEq

/-- `torch.cuda.amp.GradScaler`: enabled flag, current scale factor, and
whether the gradients of the pending step have already been unscaled by an
explicit `unscale_` call. -/
structure GradScaler where
  enabled : Bool
  scaleFactor : ℚ
  alreadyUnscaled : Bool
deriving DecidableEq

/-- The flat hyperparameter mapping loaded from `config/train.yaml`.
`iter_num` and `best_val_loss` are `Option`s: they are present only when
resuming from a checkpoint, and `config.setdefault` fills them in. -/
structure Config where
  dtype : String
  learning_rate : ℚ
  weight_decay : ℚ
  beta1 : ℚ
  beta2 : ℚ
  grad_clip : ℚ
  gradient_accumulation_steps : Nat
  max_iters : Nat
  eval_interval : Nat
  log_interval : Nat
  eval_iters : Nat
  always_save_checkpoint : Bool
  out_dir : String
  iter_num : Option Nat
  best_val_loss : Option ℚ
deriving DecidableEq

/-- A value stored in the checkpoint dict persisted to `ckpt_status.pt`. -/
inductive CkptVal where
  | optSt (s : ℚ)
  | natV (n : Nat)
  | ratV (q : ℚ)
  | cfgV (c : Config)
deriving DecidableEq

/-- The checkpoint bundle, as the ordered key/value mapping built by the
dict literal in `main`. -/
abbrev Checkpoint := List (String × CkptVal)

def keyOptimizer : String := "optimizer"

def keyIterNum : String := "iter_num"

def keyBestValLoss : String := "best_val_loss"

def keyConfig : String := "config"

/-- The dict literal saved by `torch.save` on checkpoint. -/
def mkCheckpoint (st : ℚ) (it : Nat) (best : ℚ) (cfg : Config) : Checkpoint :=
  [(keyOptimizer, CkptVal.optSt st), (keyIterNum, CkptVal.natV it),
   (keyBestValLoss, CkptVal.ratV best), (keyConfig, CkptVal.cfgV cfg)]

/-- Externally visible actions of the script, in program order. -/
inductive Event where
  | loadConfigE
  | setupE
  | initModelE
  | initScalerE
  | initOptimizerE
  | initSchedulerE
  | initEstimatorE
  | initLoadersE
  | setLRE (it : Nat) (lr : ℚ)
  | forwardTrainE (it : Nat) (training : Bool)
  | backwardE (it : Nat) (scaledLoss : ℚ)
  | clipE (it : Nat)
  | optStepE (it : Nat)
  | scalerUpdateE (it : Nat)
  | zeroGradE (it : Nat)
  | forwardEvalE (gradEnabled : Bool) (training : Bool)
  | rougeE
  | evalE (it : Nat) (valLoss : ℚ) (trainLoss : ℚ)
  | saveWeightsE (it : Nat) (dir : String)
  | saveCkptE (it : Nat) (ckpt : Checkpoint)
  | logE (it : Nat) (loss : ℚ)
  | plotE
deriving DecidableEq

/-- Everything the script receives from outside: the config and the
abstract behaviour of the external deep-learning framework
(dataloaders as streams of batches, the model's loss/logits surface and
its autodiff derivative, the lr schedule, the AdamW update, gradient-norm
clipping, the scaler growth policy, and the pretrained initial weights). -/
structure Env where
  config : Config
  trainBatchAt : Nat → Batch
  valBatchAt : Nat → Batch
  lossFn : ℚ → ℚ → ℚ → ℚ
  logitsFn : ℚ → ℚ → ℚ → ℚ
  gradFn : ℚ → ℚ → ℚ → ℚ
  rougeFn : Batch → ℚ
  lr_scheduler : Nat → ℚ
  optimizerUpdate : ℚ → ℚ → ℚ → ℚ → ℚ × ℚ
  clipFn : ℚ → ℚ → ℚ
  growthFn : ℚ → ℚ
  initParams : ℚ
  initOptState : ℚ

/-- `model(batch)`: the forward call writes the logits and the loss into
the batch in place (modelled by returning the updated batch; the Python
call's return value is discarded by every caller in the file). -/
def forwardBatch (env : Env) (m : Model) (b : Batch) : Batch :=
  { b with logits := env.logitsFn m.params b.tokens b.labels,
           loss := env.lossFn m.params b.tokens b.labels }

/-- `init_scaler`: a GradScaler that is enabled exactly when the configured
dtype is float16 (`enabled=False` makes it a no-op). -/
def init_scaler (cfg : Config) : GradScaler :=
  { enabled := cfg.dtype == "float16", scaleFactor := 65536, alreadyUnscaled := false }

/-- The factor by which `scaler.scale` multiplies a loss (1 when the
scaler is disabled). -/
def scalerScaleFactor (sc : GradScaler) : ℚ :=
  if sc.enabled then sc.scaleFactor else 1

/-- `scaler.scale(loss)`: returns the loss unchanged when disabled,
otherwise multiplies by the current scale factor. -/
def scaler_scale (sc : GradScaler) (v : ℚ) : ℚ :=
  if sc.enabled then sc.scaleFactor * v else v

/-- `scaler.unscale_(optimizer)`: when enabled, divides the accumulated
gradients by the scale factor and remembers that they are unscaled;
a no-op when disabled. -/
def scaler_unscale (sc : GradScaler) (m : Model) : GradScaler × Model :=
  if sc.enabled then
    ({ sc with alreadyUnscaled := true },
     { m with grads := m.grads.map (fun g => g / sc.scaleFactor) })
  else (sc, m)

/-- `torch.nn.utils.clip_grad_norm_`: clips the gradients in place via the
abstract clipping function. -/
def clip_grad_norm (env : Env) (maxNorm : ℚ) (m : Model) : Model :=
  { m with grads := m.grads.map (env.clipFn maxNorm) }

/-- `optimizer.step()` (AdamW): parameters with `grad = None` are skipped;
otherwise the abstract update rule is applied with the (single) parameter
group's learning rate. -/
def optimizer_step (env : Env) (opt : Optimizer) (m : Model) : Optimizer × Model :=
  match m.grads with
  | none => (opt, m)
  | some g =>
      let lr := (opt.param_groups.headD { lr := 0 }).lr
      let r := env.optimizerUpdate opt.optState lr g m.params
      ({ opt with optState := r.1 }, { m with params := r.2 })

/-- `scaler.step(optimizer)`: when enabled, unscales the gradients first
(unless an explicit `unscale_` already did) and then steps the optimizer;
when disabled, it simply calls `optimizer.step()`. -/
def scaler_step (env : Env) (sc : GradScaler) (opt : Optimizer) (m : Model) :
    GradScaler × Optimizer × Model :=
  if sc.enabled then
    let m2 := if sc.alreadyUnscaled then m
              else { m with grads := m.grads.map (fun g => g / sc.scaleFactor) }
    let r := optimizer_step env opt m2
    ({ sc with alreadyUnscaled := true }, r.1, r.2)
  else
    let r := optimizer_step env opt m
    (sc, r.1, r.2)

/-- `scaler.update()`: when enabled, applies the growth policy to the scale
factor and resets the unscaled flag; a no-op when disabled. -/
def scaler_update (env : Env) (sc : GradScaler) : GradScaler :=
  if sc.enabled then
    { sc with scaleFactor := env.growthFn sc.scaleFactor, alreadyUnscaled := false }
  else sc

/-- Mean of a tensor of recorded values (`losses.mean()`). -/
def listMean (l : List ℚ) : ℚ := l.sum / (l.length : ℚ)

/-- Result of the inner loop of `estimate_loss`. -/
structure EvalLoopOut where
  losses : List ℚ
  rouges : List ℚ
  model : Model
  pos : Nat
  events : List Event

/-- The `for k in range(eval_iters)` loop of `estimate_loss`: draw a batch,
run the forward under the `@torch.no_grad()` context (so its events carry
`gradEnabled = false`), record `batch.loss`, and optionally the ROUGE
score. -/
def evalLoop (env : Env) (loader : Nat → Batch) (rr : Bool) :
    Nat → Model → Nat → EvalLoopOut
  | 0, m, pos => { losses := [], rouges := [], model := m, pos := pos, events := [] }
  | Nat.succ k, m, pos =>
      let b := forwardBatch env m (loader pos)
      let rest := evalLoop env loader rr k m (pos + 1)
      { losses := b.loss :: rest.losses,
        rouges := (if rr then [env.rougeFn b] else []) ++ rest.rouges,
        model := rest.model,
        pos := rest.pos,
        events := Event.forwardEvalE false m.training ::
          ((if rr then [Event.rougeE] else []) ++ rest.events) }

/-- Result of `estimate_loss`. -/
structure EvalOut where
  loss : ℚ
  rouge : Option ℚ
  model : Model
  pos : Nat
  events : List Event

/-- `estimate_loss(model, dataloader, return_rouge)`: switch the model to
eval mode, consume `eval_iters` batches under `no_grad`, switch the model
back to train mode, and return the mean loss (and mean ROUGE when
requested). -/
def estimate_loss (env : Env) (m0 : Model) (loader : Nat → Batch) (pos : Nat)
    (return_rouge : Bool) : EvalOut :=
  let m1 : Model := { m0 with training := false }
  let r := evalLoop env loader return_rouge env.config.eval_iters m1 pos
  { loss := listMean r.losses,
    rouge := if return_rouge then some (listMean r.rouges) else none,
    model := { r.model with training := true },
    pos := r.pos,
    events := r.events }

/-- Result of the gradient-accumulation inner loop. -/
structure AccumOut where
  model : Model
  cur : Batch
  nextB : Batch
  pos : Nat
  events : List Event

/-- The `for _ in range(gradient_accumulation_steps)` loop: take the
prefetched batch, run the forward (mutating the batch), prefetch the next
batch, and run `scaler.scale(batch.loss).backward()`, which accumulates the
scaled gradient of that batch's loss into the model's gradients. -/
def accumLoop (env : Env) (it : Nat) (sc : GradScaler) :
    Nat → Model → Batch → Batch → Nat → AccumOut
  | 0, m, cur, nb, pos =>
      { model := m, cur := cur, nextB := nb, pos := pos, events := [] }
  | Nat.succ k, m, _cur, nb, pos =>
      let b := forwardBatch env m nb
      let g2 : ℚ := m.grads.getD 0 + scalerScaleFactor sc * env.gradFn m.params nb.tokens nb.labels
      let m2 : Model := { m with grads := some g2 }
      let rest := accumLoop env it sc k m2 b (env.trainBatchAt pos) (pos + 1)
      { model := rest.model, cur := rest.cur, nextB := rest.nextB, pos := rest.pos,
        events := Event.forwardTrainE it m.training ::
          Event.backwardE it (scaler_scale sc b.loss) :: rest.events }

/-- The mutable state of `main`'s training loop. -/
structure LoopState where
  model : Model
  optimizer : Optimizer
  scaler : GradScaler
  best_val_loss : ℚ
  train_losses : List ℚ
  val_losses : List ℚ
  curBatch : Batch
  nextBatch : Batch
  trainPos : Nat
  valPos : Nat
deriving DecidableEq

/-- Output of one phase of the loop body: the updated state and the events
it emitted. -/
structure PhaseOut where
  state : LoopState
  events : List Event

/-- The `for param_group in optimizer.param_groups: param_group["lr"] = lr`
loop. -/
def lrUpdatedGroups (gs : List ParamGroup) (lr : ℚ) : List ParamGroup :=
  gs.map fun g => { g with lr := lr }

/-- The update phase of one loop iteration: set the scheduled learning rate
on every parameter group, run the gradient-accumulation loop, optionally
unscale and clip the gradients, step the optimizer through the scaler,
update the scaler, and flush the gradients. -/
def updatePhase (env : Env) (s : LoopState) (it : Nat) : PhaseOut :=
  let cfg := env.config
  let lr := env.lr_scheduler it
  let opt1 : Optimizer :=
    { s.optimizer with param_groups := lrUpdatedGroups s.optimizer.param_groups lr }
  let a := accumLoop env it s.scaler cfg.gradient_accumulation_steps
    s.model s.curBatch s.nextBatch s.trainPos
  let scm : GradScaler × Model × List Event :=
    if cfg.grad_clip = 0 then (s.scaler, a.model, [])
    else
      ((scaler_unscale s.scaler a.model).1,
       clip_grad_norm env cfg.grad_clip (scaler_unscale s.scaler a.model).2,
       [Event.clipE it])
  let st := scaler_step env scm.1 opt1 scm.2.1
  let sc3 := scaler_update env st.1
  let m4 : Model := { st.2.2 with grads := none }
  let s2 : LoopState :=
    { s with model := m4, optimizer := st.2.1, scaler := sc3, curBatch := a.cur,
             nextBatch := a.nextB, trainPos := a.pos }
  { state := s2,
    events := Event.setLRE it lr ::
      (a.events ++ scm.2.2 ++ [Event.optStepE it, Event.scalerUpdateE it, Event.zeroGradE it]) }

/-- The validation-loss estimate computed in the eval branch
(`val_loss = estimate_loss(model, val_loader)`). -/
def valEval (env : Env) (s : LoopState) : EvalOut :=
  estimate_loss env s.model env.valBatchAt s.valPos false

/-- The train-loss estimate computed in the eval branch, after the
validation estimate and on the shared train loader
(`train_loss = estimate_loss(model, train_loader)`). -/
def trainEval (env : Env) (s : LoopState) : EvalOut :=
  estimate_loss env (valEval env s).model env.trainBatchAt s.trainPos false

/-- The evaluation branch of the loop body (`it % eval_interval == 0`):
estimate the validation and train losses (the dead ROUGE branch is elided,
as `if False` never runs), record them, and on improvement (or when
`always_save_checkpoint`) update the best loss and, when `it > 0`, save the
model weights and the checkpoint bundle. -/
def evalPhase (env : Env) (s : LoopState) (it : Nat) : PhaseOut :=
  let cfg := env.config
  let ev := valEval env s
  let et := trainEval env s
  let s1 : LoopState :=
    { s with model := et.model, valPos := ev.pos, trainPos := et.pos,
             train_losses := s.train_losses ++ [et.loss],
             val_losses := s.val_losses ++ [ev.loss] }
  let baseEvents := ev.events ++ et.events ++ [Event.evalE it ev.loss et.loss]
  if ev.loss < s.best_val_loss ∨ cfg.always_save_checkpoint = true then
    let s2 : LoopState := { s1 with best_val_loss := ev.loss }
    if 0 < it then
      { state := s2, events := baseEvents ++
          [Event.saveWeightsE it cfg.out_dir,
           Event.saveCkptE it (mkCheckpoint s.optimizer.optState it ev.loss cfg)] }
    else
      { state := s2, events := baseEvents }
  else
    { state := s1, events := baseEvents }

/-- The logging branch of the loop body (`elif it % log_interval == 0`):
read the loss from the last training batch and record it. -/
def logPhase (_env : Env) (s : LoopState) (it : Nat) : PhaseOut :=
  { state := { s with train_losses := s.train_losses ++ [s.curBatch.loss] },
    events := [Event.logE it s.curBatch.loss] }

/-- The body of `for it in range(iter_num, max_iters)`. -/
def runIter (env : Env) (s : LoopState) (it : Nat) : PhaseOut :=
  let u := updatePhase env s it
  if it % env.config.eval_interval = 0 then
    let e := evalPhase env u.state it
    { state := e.state, events := u.events ++ e.events }
  else if it % env.config.log_interval = 0 then
    let l := logPhase env u.state it
    { state := l.state, events := u.events ++ l.events }
  else
    { state := u.state, events := u.events }

/-- The whole training loop, over an explicit list of iteration indices. -/
def runLoop (env : Env) : List Nat → LoopState → PhaseOut
  | [], s => { state := s, events := [] }
  | it :: its, s =>
      let r := runIter env s it
      let rest := runLoop env its r.state
      { state := rest.state, events := r.events ++ rest.events }

/-- `config.setdefault("iter_num", 0)` and
`config.setdefault("best_val_loss", 1e9)`. -/
def configWithDefaults (c : Config) : Config :=
  { c with iter_num := some (c.iter_num.getD 0),
           best_val_loss := some (c.best_val_loss.getD 1000000000) }

/-- The iteration the loop starts from. -/
def startIter (c : Config) : Nat := c.iter_num.getD 0

/-- The initial tracked best validation loss. -/
def initialBest (c : Config) : ℚ := c.best_val_loss.getD 1000000000

/-- The list of loop indices, `range(iter_num, max_iters)`. -/
def iterList (c : Config) : List Nat :=
  List.range' (startIter c) (c.max_iters - startIter c)

/-- The state right before the loop: pretrained model in training mode with
no gradients, a single AdamW parameter group at the configured learning
rate, the scaler from `init_scaler`, and the very first batch prefetched.
In Python the `batch` variable is not yet bound here; a dummy batch stands
in for it, and it is overwritten before any use whenever
`gradient_accumulation_steps ≥ 1`. -/
def initState (env : Env) : LoopState :=
  let cfg := env.config
  { model := { params := env.initParams, grads := none, training := true },
    optimizer := { param_groups := [{ lr := cfg.learning_rate }],
                   optState := env.initOptState },
    scaler := init_scaler cfg,
    best_val_loss := initialBest cfg,
    train_losses := [], val_losses := [],
    curBatch := { tokens := 0, labels := 0, logits := 0, loss := 0 },
    nextBatch := env.trainBatchAt 0,
    trainPos := 1, valPos := 0 }

/-- The events of the straight-line prelude of `main`, in program order. -/
def initEvents : List Event :=
  [Event.loadConfigE, Event.setupE, Event.initModelE, Event.initScalerE,
   Event.initOptimizerE, Event.initSchedulerE, Event.initEstimatorE,
   Event.initLoadersE]

/-- The whole of `main`: apply the config defaults, run the prelude, the
training loop, and finally plot the loss curves. -/
def mainRun (env : Env) : PhaseOut :=
  let env2 : Env := { env with config := configWithDefaults env.config }
  let r := runLoop env2 (iterList env2.config) (initState env2)
  { state := r.state, events := initEvents ++ r.events ++ [Event.plotE] }

end Train

namespace Train

/-! ### Characterization of `estimate_loss` -/

/-- The per-batch losses that `estimate_loss` records: the loss the model
with parameters `p` assigns to the next `k` batches of the loader. -/
def evalLossList (env : Env) (p : ℚ) (loader : Nat → Batch) : Nat → Nat → List ℚ
  | _pos, 0 => []
  | pos, Nat.succ k =>
      env.lossFn p (loader pos).tokens (loader pos).labels ::
        evalLossList env p loader (pos + 1) k

lemma evalLossList_length (env : Env) (p : ℚ) (loader : Nat → Batch) :
    ∀ pos k, (evalLossList env p loader pos k).length = k := by
  intro pos k
  induction k generalizing pos with
  | zero => rfl
  | succ k ih => simp [evalLossList, ih]

lemma evalLoop_model (env : Env) (loader : Nat → Batch) (rr : Bool) :
    ∀ k m pos, (evalLoop env loader rr k m pos).model = m := by
  intro k
  induction k with
  | zero => intro m pos; rfl
  | succ k ih => intro m pos; simp [evalLoop, ih]

lemma evalLoop_pos (env : Env) (loader : Nat → Batch) (rr : Bool) :
    ∀ k m pos, (evalLoop env loader rr k m pos).pos = pos + k := by
  intro k
  induction k with
  | zero => intro m pos; rfl
  | succ k ih => intro m pos; simp [evalLoop, ih]; omega

lemma evalLoop_losses (env : Env) (loader : Nat → Batch) (rr : Bool) :
    ∀ k m pos, (evalLoop env loader rr k m pos).losses
      = evalLossList env m.params loader pos k := by
  intro k
  induction k with
  | zero => intro m pos; rfl
  | succ k ih => intro m pos; simp [evalLoop, ih, evalLossList, forwardBatch]

/-- The events `estimate_loss`'s inner loop emits: one `no_grad` forward
per batch (with the model in eval mode), plus a ROUGE computation when
requested. -/
def evalEvents (tr : Bool) (rr : Bool) : Nat → List Event
  | 0 => []
  | Nat.succ k =>
      Event.forwardEvalE false tr ::
        ((if rr then [Event.rougeE] else []) ++ evalEvents tr rr k)

lemma evalLoop_events (env : Env) (loader : Nat → Batch) (rr : Bool) :
    ∀ k m pos, (evalLoop env loader rr k m pos).events
      = evalEvents m.training rr k := by
  intro k
  induction k with
  | zero => intro m pos; rfl
  | succ k ih => intro m pos; simp [evalLoop, ih, evalEvents]

lemma evalEvents_mem (tr rr : Bool) :
    ∀ k e, e ∈ evalEvents tr rr k →
      e = Event.forwardEvalE false tr ∨ e = Event.rougeE := by
  intro k
  induction k with
  | zero => intro e h; simp [evalEvents] at h
  | succ k ih =>
      intro e h
      rw [evalEvents] at h
      rcases List.mem_cons.mp h with h | h
      · exact Or.inl h
      rcases List.mem_append.mp h with h | h
      · rcases Bool.eq_false_or_eq_true rr with hr | hr <;> rw [hr] at h <;> simp at h
        exact Or.inr h
      · exact ih e h

lemma evalLoop_events_mem (env : Env) (loader : Nat → Batch) (rr : Bool) :
    ∀ k m pos e, e ∈ (evalLoop env loader rr k m pos).events →
      e = Event.forwardEvalE false m.training ∨ e = Event.rougeE := by
  intro k m pos e h
  rw [evalLoop_events] at h
  exact evalEvents_mem m.training rr k e h

lemma estimate_loss_model (env : Env) (m : Model) (loader : Nat → Batch) (pos : Nat)
    (rr : Bool) : (estimate_loss env m loader pos rr).model = { m with training := true } := by
  simp [estimate_loss, evalLoop_model]

lemma estimate_loss_loss (env : Env) (m : Model) (loader : Nat → Batch) (pos : Nat)
    (rr : Bool) : (estimate_loss env m loader pos rr).loss
      = listMean (evalLossList env m.params loader pos env.config.eval_iters) := by
  simp [estimate_loss, evalLoop_losses]

lemma estimate_loss_pos (env : Env) (m : Model) (loader : Nat → Batch) (pos : Nat)
    (rr : Bool) : (estimate_loss env m loader pos rr).pos = pos + env.config.eval_iters := by
  simp [estimate_loss, evalLoop_pos]

lemma estimate_loss_events_mem (env : Env) (m : Model) (loader : Nat → Batch) (pos : Nat)
    (rr : Bool) (e : Event) (h : e ∈ (estimate_loss env m loader pos rr).events) :
    e = Event.forwardEvalE false false ∨ e = Event.rougeE := by
  simp only [estimate_loss] at h
  exact evalLoop_events_mem env loader rr env.config.eval_iters _ pos e h

/-! ### Characterization of the gradient-accumulation loop -/

/-- The events the accumulation loop emits: one forward and one backward
(on the scaled loss of the consumed batch) per step. -/
def accumEvents (env : Env) (it : Nat) (sc : GradScaler) (p : ℚ) (tr : Bool) :
    Batch → Nat → Nat → List Event
  | _nb, _pos, 0 => []
  | nb, pos, Nat.succ k =>
      Event.forwardTrainE it tr ::
        Event.backwardE it (scaler_scale sc (env.lossFn p nb.tokens nb.labels)) ::
          accumEvents env it sc p tr (env.trainBatchAt pos) (pos + 1) k

/-- The total scaled gradient accumulated over `k` accumulation steps. -/
def gradSum (env : Env) (sc : GradScaler) (p : ℚ) : Batch → Nat → Nat → ℚ
  | _nb, _pos, 0 => 0
  | nb, pos, Nat.succ k =>
      scalerScaleFactor sc * env.gradFn p nb.tokens nb.labels +
        gradSum env sc p (env.trainBatchAt pos) (pos + 1) k

lemma accumLoop_params (env : Env) (it : Nat) (sc : GradScaler) :
    ∀ k m cur nb pos, (accumLoop env it sc k m cur nb pos).model.params = m.params := by
  intro k
  induction k with
  | zero => intro m cur nb pos; rfl
  | succ k ih => intro m cur nb pos; simp [accumLoop, ih]

lemma accumLoop_training (env : Env) (it : Nat) (sc : GradScaler) :
    ∀ k m cur nb pos, (accumLoop env it sc k m cur nb pos).model.training = m.training := by
  intro k
  induction k with
  | zero => intro m cur nb pos; rfl
  | succ k ih => intro m cur nb pos; simp [accumLoop, ih]

lemma accumLoop_pos (env : Env) (it : Nat) (sc : GradScaler) :
    ∀ k m cur nb pos, (accumLoop env it sc k m cur nb pos).pos = pos + k := by
  intro k
  induction k with
  | zero => intro m cur nb pos; rfl
  | succ k ih => intro m cur nb pos; simp [accumLoop, ih]; omega

lemma accumLoop_events (env : Env) (it : Nat) (sc : GradScaler) :
    ∀ k m cur nb pos, (accumLoop env it sc k m cur nb pos).events
      = accumEvents env it sc m.params m.training nb pos k := by
  intro k
  induction k with
  | zero => intro m cur nb pos; rfl
  | succ k ih => intro m cur nb pos; simp [accumLoop, ih, accumEvents, forwardBatch]

lemma accumLoop_grads (env : Env) (it : Nat) (sc : GradScaler) :
    ∀ k m cur nb pos, (accumLoop env it sc k m cur nb pos).model.grads
      = if k = 0 then m.grads
        else some (m.grads.getD 0 + gradSum env sc m.params nb pos k) := by
  intro k
  induction k with
  | zero => intro m cur nb pos; rfl
  | succ k ih =>
      intro m cur nb pos
      rcases Nat.eq_zero_or_pos k with hk | hk
      · subst hk
        simp [accumLoop, ih, gradSum]
      · have hk' : k ≠ 0 := Nat.pos_iff_ne_zero.mp hk
        simp only [accumLoop, ih, hk', if_false, gradSum]
        simp [add_assoc]

end Train

namespace Train

/-! ### Frame lemmas for the update phase -/

lemma updatePhase_best (env : Env) (s : LoopState) (it : Nat) :
    (updatePhase env s it).state.best_val_loss = s.best_val_loss := rfl

lemma updatePhase_val_losses (env : Env) (s : LoopState) (it : Nat) :
    (updatePhase env s it).state.val_losses = s.val_losses := rfl

lemma updatePhase_train_losses (env : Env) (s : LoopState) (it : Nat) :
    (updatePhase env s it).state.train_losses = s.train_losses := rfl

lemma updatePhase_valPos (env : Env) (s : LoopState) (it : Nat) :
    (updatePhase env s it).state.valPos = s.valPos := rfl

lemma optimizer_step_groups (env : Env) (opt : Optimizer) (m : Model) :
    (optimizer_step env opt m).1.param_groups = opt.param_groups := by
  cases h : m.grads <;> simp [optimizer_step, h]

lemma scaler_step_groups (env : Env) (sc : GradScaler) (opt : Optimizer) (m : Model) :
    (scaler_step env sc opt m).2.1.param_groups = opt.param_groups := by
  by_cases h : sc.enabled <;> simp [scaler_step, h, optimizer_step_groups]

lemma updatePhase_optimizer_groups (env : Env) (s : LoopState) (it : Nat) :
    (updatePhase env s it).state.optimizer.param_groups
      = lrUpdatedGroups s.optimizer.param_groups (env.lr_scheduler it) := by
  by_cases h : env.config.grad_clip = 0 <;>
    simp [updatePhase, h, scaler_step_groups]

lemma lrUpdatedGroups_lr (gs : List ParamGroup) (lr : ℚ) :
    ∀ g ∈ lrUpdatedGroups gs lr, g.lr = lr := by
  intro g hg
  rcases List.mem_map.mp hg with ⟨g0, _, rfl⟩
  rfl

lemma updatePhase_events (env : Env) (s : LoopState) (it : Nat) :
    (updatePhase env s it).events
      = Event.setLRE it (env.lr_scheduler it) ::
          (accumEvents env it s.scaler s.model.params s.model.training s.nextBatch
             s.trainPos env.config.gradient_accumulation_steps ++
           (if env.config.grad_clip = 0 then [] else [Event.clipE it]) ++
           [Event.optStepE it, Event.scalerUpdateE it, Event.zeroGradE it]) := by
  by_cases h : env.config.grad_clip = 0 <;>
    simp [updatePhase, h, accumLoop_events]

/-! ### Event classifiers and trace counting -/

/-- Does the event record a `scaler.step(optimizer)` call? -/
def isOptStepB : Event → Bool
  | Event.optStepE _ => true
  | _ => false

/-- Does the event record a checkpoint-bundle save (`torch.save`)? -/
def isSaveCkptB : Event → Bool
  | Event.saveCkptE _ _ => true
  | _ => false

/-- Does the event record any checkpoint write (weights or bundle)? -/
def isSaveB : Event → Bool
  | Event.saveCkptE _ _ => true
  | Event.saveWeightsE _ _ => true
  | _ => false

/-- Does the event record an evaluation? -/
def isEvalB : Event → Bool
  | Event.evalE _ _ _ => true
  | _ => false

/-- Does the event record the evaluation of loop iteration `it`? -/
def evalAtB (it : Nat) : Event → Bool
  | Event.evalE j _ _ => j == it
  | _ => false

/-- The number of optimizer steps a trace records. -/
def countOptSteps (evs : List Event) : Nat := (evs.filter isOptStepB).length

/-- Whether a trace records an evaluation at loop iteration `it`. -/
def hasEvalAt (evs : List Event) (it : Nat) : Bool := evs.any (evalAtB it)

lemma countOptSteps_append (l r : List Event) :
    countOptSteps (l ++ r) = countOptSteps l + countOptSteps r := by
  simp [countOptSteps]

lemma accumEvents_filter_false (env : Env) (it : Nat) (sc : GradScaler) (p : ℚ)
    (tr : Bool) (q : Event → Bool)
    (hf : ∀ j t, q (Event.forwardTrainE j t) = false)
    (hb : ∀ j v, q (Event.backwardE j v) = false) :
    ∀ nb pos k, (accumEvents env it sc p tr nb pos k).filter q = [] := by
  intro nb pos k
  induction k generalizing nb pos with
  | zero => rfl
  | succ k ih => simp [accumEvents, hf, hb, ih]

lemma evalEvents_filter_false (tr rr : Bool) (q : Event → Bool)
    (hf : ∀ g t, q (Event.forwardEvalE g t) = false)
    (hr : q Event.rougeE = false) :
    ∀ k, (evalEvents tr rr k).filter q = [] := by
  intro k
  apply List.filter_eq_nil_iff.mpr
  intro e he
  rcases evalEvents_mem tr rr k e he with h | h <;> subst h <;> simp [hf, hr]

lemma estimate_loss_filter_false (env : Env) (m : Model) (loader : Nat → Batch)
    (pos : Nat) (rr : Bool) (q : Event → Bool)
    (hf : ∀ g t, q (Event.forwardEvalE g t) = false)
    (hr : q Event.rougeE = false) :
    ((estimate_loss env m loader pos rr).events).filter q = [] := by
  simp only [estimate_loss]
  rw [evalLoop_events]
  exact evalEvents_filter_false _ rr q hf hr _

end Train

namespace Train

/-! ### Membership tools and phase characterizations -/

lemma not_mem_of_filter_nil {p : Event → Bool} {l : List Event}
    (h : l.filter p = []) {e : Event} (hp : p e = true) : e ∉ l := by
  intro hm
  have := List.filter_eq_nil_iff.mp h e hm
  simp [hp] at this

lemma accumEvents_mem (env : Env) (it : Nat) (sc : GradScaler) (p : ℚ) (tr : Bool) :
    ∀ nb pos k e, e ∈ accumEvents env it sc p tr nb pos k →
      e = Event.forwardTrainE it tr ∨ ∃ v, e = Event.backwardE it v := by
  intro nb pos k
  induction k generalizing nb pos with
  | zero => intro e h; simp [accumEvents] at h
  | succ k ih =>
      intro e h
      rw [accumEvents] at h
      rcases List.mem_cons.mp h with h | h
      · exact Or.inl h
      rcases List.mem_cons.mp h with h | h
      · exact Or.inr ⟨_, h⟩
      · exact ih _ _ e h

lemma evalPhase_events (env : Env) (s : LoopState) (it : Nat) :
    (evalPhase env s it).events
      = (valEval env s).events ++ (trainEval env s).events ++
        [Event.evalE it (valEval env s).loss (trainEval env s).loss] ++
        (if ((valEval env s).loss < s.best_val_loss ∨
              env.config.always_save_checkpoint = true) ∧ 0 < it
         then [Event.saveWeightsE it env.config.out_dir,
               Event.saveCkptE it
                 (mkCheckpoint s.optimizer.optState it (valEval env s).loss env.config)]
         else []) := by
  by_cases h1 : (valEval env s).loss < s.best_val_loss ∨
      env.config.always_save_checkpoint = true <;>
    by_cases h2 : 0 < it <;>
      simp [evalPhase, h1, h2]

lemma evalPhase_best (env : Env) (s : LoopState) (it : Nat) :
    (evalPhase env s it).state.best_val_loss
      = if (valEval env s).loss < s.best_val_loss ∨
            env.config.always_save_checkpoint = true
        then (valEval env s).loss else s.best_val_loss := by
  by_cases h1 : (valEval env s).loss < s.best_val_loss ∨
      env.config.always_save_checkpoint = true <;>
    by_cases h2 : 0 < it <;>
      simp [evalPhase, h1, h2]

lemma evalPhase_val_losses (env : Env) (s : LoopState) (it : Nat) :
    (evalPhase env s it).state.val_losses = s.val_losses ++ [(valEval env s).loss] := by
  by_cases h1 : (valEval env s).loss < s.best_val_loss ∨
      env.config.always_save_checkpoint = true <;>
    by_cases h2 : 0 < it <;>
      simp [evalPhase, h1, h2]

lemma logPhase_best (env : Env) (s : LoopState) (it : Nat) :
    (logPhase env s it).state.best_val_loss = s.best_val_loss := rfl

lemma logPhase_val_losses (env : Env) (s : LoopState) (it : Nat) :
    (logPhase env s it).state.val_losses = s.val_losses := rfl

/-! ### The loop body by branch -/

lemma runIter_eval (env : Env) (s : LoopState) (it : Nat)
    (h : it % env.config.eval_interval = 0) :
    runIter env s it
      = { state := (evalPhase env (updatePhase env s it).state it).state,
          events := (updatePhase env s it).events ++
            (evalPhase env (updatePhase env s it).state it).events } := by
  simp [runIter, h]

lemma runIter_log (env : Env) (s : LoopState) (it : Nat)
    (h1 : ¬ it % env.config.eval_interval = 0)
    (h2 : it % env.config.log_interval = 0) :
    runIter env s it
      = { state := (logPhase env (updatePhase env s it).state it).state,
          events := (updatePhase env s it).events ++
            (logPhase env (updatePhase env s it).state it).events } := by
  simp [runIter, h1, h2]

lemma runIter_none (env : Env) (s : LoopState) (it : Nat)
    (h1 : ¬ it % env.config.eval_interval = 0)
    (h2 : ¬ it % env.config.log_interval = 0) :
    runIter env s it = updatePhase env s it := by
  simp [runIter, h1, h2]

end Train

namespace Train

/-! ### Counting optimizer steps -/

lemma countOptSteps_updatePhase (env : Env) (s : LoopState) (it : Nat) :
    countOptSteps (updatePhase env s it).events = 1 := by
  have ha := accumEvents_filter_false env it s.scaler s.model.params s.model.training
    isOptStepB (fun _ _ => rfl) (fun _ _ => rfl) s.nextBatch s.trainPos
    env.config.gradient_accumulation_steps
  by_cases h : env.config.grad_clip = 0 <;>
    simp [countOptSteps, updatePhase_events, h, List.filter_append, ha, isOptStepB]

lemma countOptSteps_estimate (env : Env) (m : Model) (loader : Nat → Batch)
    (pos : Nat) (rr : Bool) :
    countOptSteps (estimate_loss env m loader pos rr).events = 0 := by
  rw [countOptSteps,
    estimate_loss_filter_false env m loader pos rr isOptStepB (fun _ _ => rfl) rfl]
  rfl

lemma countOptSteps_evalPhase (env : Env) (s : LoopState) (it : Nat) :
    countOptSteps (evalPhase env s it).events = 0 := by
  rw [evalPhase_events]
  have he1 : countOptSteps (valEval env s).events = 0 :=
    countOptSteps_estimate env s.model env.valBatchAt s.valPos false
  have he2 : countOptSteps (trainEval env s).events = 0 :=
    countOptSteps_estimate env (valEval env s).model env.trainBatchAt s.trainPos false
  have h3 : countOptSteps
      [Event.evalE it (valEval env s).loss (trainEval env s).loss] = 0 := rfl
  have h4 : countOptSteps
      [Event.saveWeightsE it env.config.out_dir,
       Event.saveCkptE it
         (mkCheckpoint s.optimizer.optState it (valEval env s).loss env.config)] = 0 := rfl
  have h5 : countOptSteps ([] : List Event) = 0 := rfl
  by_cases h : ((valEval env s).loss < s.best_val_loss ∨
      env.config.always_save_checkpoint = true) ∧ 0 < it
  · rw [if_pos h]
    simp only [countOptSteps_append, he1, he2]
    rfl
  · rw [if_neg h]
    simp only [countOptSteps_append, he1, he2, h3, h5]

lemma countOptSteps_logPhase (env : Env) (s : LoopState) (it : Nat) :
    countOptSteps (logPhase env s it).events = 0 := rfl

lemma countOptSteps_runIter (env : Env) (s : LoopState) (it : Nat) :
    countOptSteps (runIter env s it).events = 1 := by
  by_cases h1 : it % env.config.eval_interval = 0
  · rw [runIter_eval env s it h1]
    simp [countOptSteps_append, countOptSteps_updatePhase, countOptSteps_evalPhase]
  · by_cases h2 : it % env.config.log_interval = 0
    · rw [runIter_log env s it h1 h2]
      simp [countOptSteps_append, countOptSteps_updatePhase, countOptSteps_logPhase]
    · rw [runIter_none env s it h1 h2]
      exact countOptSteps_updatePhase env s it

lemma countOptSteps_runLoop (env : Env) :
    ∀ its s, countOptSteps (runLoop env its s).events = its.length := by
  intro its
  induction its with
  | nil => intro s; rfl
  | cons it its ih =>
      intro s
      simp [runLoop, countOptSteps_append, countOptSteps_runIter, ih]
      omega

lemma countOptSteps_mainRun (env : Env) :
    countOptSteps (mainRun env).events
      = env.config.max_iters - startIter env.config := by
  have h0 : countOptSteps initEvents = 0 := rfl
  have h1 : countOptSteps [Event.plotE] = 0 := rfl
  simp only [mainRun, countOptSteps_append, h0, h1, countOptSteps_runLoop,
    iterList, List.length_range']
  simp [startIter, configWithDefaults]

/-! ### Where evaluations happen -/

lemma hasEvalAt_append (l r : List Event) (j : Nat) :
    hasEvalAt (l ++ r) j = (hasEvalAt l j || hasEvalAt r j) := by
  simp [hasEvalAt]

lemma any_eq_false_of_filter_nil {p : Event → Bool} {l : List Event}
    (h : l.filter p = []) : l.any p = false := by
  rw [List.any_eq_false]
  intro e he
  have := List.filter_eq_nil_iff.mp h e he
  simpa using this

lemma hasEvalAt_updatePhase (env : Env) (s : LoopState) (it j : Nat) :
    hasEvalAt (updatePhase env s it).events j = false := by
  have ha := accumEvents_filter_false env it s.scaler s.model.params s.model.training
    (evalAtB j) (fun _ _ => rfl) (fun _ _ => rfl) s.nextBatch s.trainPos
    env.config.gradient_accumulation_steps
  have ha' := any_eq_false_of_filter_nil ha
  by_cases h : env.config.grad_clip = 0 <;>
    simp [hasEvalAt, updatePhase_events, h, List.any_append, evalAtB, ha']

lemma hasEvalAt_estimate (env : Env) (m : Model) (loader : Nat → Batch)
    (pos : Nat) (rr : Bool) (j : Nat) :
    hasEvalAt (estimate_loss env m loader pos rr).events j = false := by
  exact any_eq_false_of_filter_nil
    (estimate_loss_filter_false env m loader pos rr (evalAtB j) (fun _ _ => rfl) rfl)

lemma hasEvalAt_evalPhase (env : Env) (s : LoopState) (it j : Nat) :
    hasEvalAt (evalPhase env s it).events j = (it == j) := by
  rw [evalPhase_events]
  have he1 : hasEvalAt (valEval env s).events j = false :=
    hasEvalAt_estimate env s.model env.valBatchAt s.valPos false j
  have he2 : hasEvalAt (trainEval env s).events j = false :=
    hasEvalAt_estimate env (valEval env s).model env.trainBatchAt s.trainPos false j
  have h3 : hasEvalAt
      [Event.evalE it (valEval env s).loss (trainEval env s).loss] j = (it == j) := by
    simp [hasEvalAt, evalAtB]
  have h4 : hasEvalAt
      [Event.saveWeightsE it env.config.out_dir,
       Event.saveCkptE it
         (mkCheckpoint s.optimizer.optState it (valEval env s).loss env.config)] j
      = false := rfl
  have h5 : hasEvalAt ([] : List Event) j = false := rfl
  by_cases h : ((valEval env s).loss < s.best_val_loss ∨
      env.config.always_save_checkpoint = true) ∧ 0 < it
  · rw [if_pos h, hasEvalAt_append, hasEvalAt_append, hasEvalAt_append,
      he1, he2, h3, h4]
    simp
  · rw [if_neg h, hasEvalAt_append, hasEvalAt_append, hasEvalAt_append,
      he1, he2, h3, h5]
    simp

lemma hasEvalAt_runIter (env : Env) (s : LoopState) (it j : Nat) :
    hasEvalAt (runIter env s it).events j
      = (decide (it % env.config.eval_interval = 0) && (it == j)) := by
  by_cases h1 : it % env.config.eval_interval = 0
  · rw [runIter_eval env s it h1]
    simp [hasEvalAt_append, hasEvalAt_updatePhase, hasEvalAt_evalPhase, h1]
  · by_cases h2 : it % env.config.log_interval = 0
    · rw [runIter_log env s it h1 h2]
      have hl : hasEvalAt (logPhase env (updatePhase env s it).state it).events j
          = false := rfl
      simp [hasEvalAt_append, hasEvalAt_updatePhase, hl, h1]
    · rw [runIter_none env s it h1 h2]
      simp [hasEvalAt_updatePhase, h1]

lemma hasEvalAt_runLoop (env : Env) :
    ∀ its s j, hasEvalAt (runLoop env its s).events j
      = its.any (fun i => decide (i % env.config.eval_interval = 0) && (i == j)) := by
  intro its
  induction its with
  | nil => intro s j; rfl
  | cons it its ih =>
      intro s j
      simp [runLoop, hasEvalAt_append, hasEvalAt_runIter, ih]

lemma hasEvalAt_mainRun (env : Env) (j : Nat) :
    hasEvalAt (mainRun env).events j
      = (iterList (configWithDefaults env.config)).any
          (fun i => decide (i % env.config.eval_interval = 0) && (i == j)) := by
  have h0 : hasEvalAt initEvents j = false := rfl
  have h1 : hasEvalAt [Event.plotE] j = false := rfl
  simp only [mainRun, hasEvalAt_append, h0, h1, hasEvalAt_runLoop]
  simp [configWithDefaults]

end Train

namespace Train

/-! ### Where checkpoint bundles are written -/

lemma filter_saveCkpt_updatePhase (env : Env) (s : LoopState) (it : Nat) :
    (updatePhase env s it).events.filter isSaveCkptB = [] := by
  have ha := accumEvents_filter_false env it s.scaler s.model.params s.model.training
    isSaveCkptB (fun _ _ => rfl) (fun _ _ => rfl) s.nextBatch s.trainPos
    env.config.gradient_accumulation_steps
  by_cases h : env.config.grad_clip = 0 <;>
    simp [updatePhase_events, h, List.filter_append, ha, isSaveCkptB]

lemma evalPhase_saveCkpt (env : Env) (s : LoopState) (it j : Nat) (c : Checkpoint)
    (h : Event.saveCkptE j c ∈ (evalPhase env s it).events) :
    j = it ∧ c = mkCheckpoint s.optimizer.optState it (valEval env s).loss env.config := by
  rw [evalPhase_events] at h
  have hv : Event.saveCkptE j c ∉ (valEval env s).events :=
    not_mem_of_filter_nil
      (estimate_loss_filter_false env s.model env.valBatchAt s.valPos false isSaveCkptB
        (fun _ _ => rfl) rfl) rfl
  have ht : Event.saveCkptE j c ∉ (trainEval env s).events :=
    not_mem_of_filter_nil
      (estimate_loss_filter_false env (valEval env s).model env.trainBatchAt s.trainPos
        false isSaveCkptB (fun _ _ => rfl) rfl) rfl
  rcases List.mem_append.mp h with h | h
  · rcases List.mem_append.mp h with h | h
    · rcases List.mem_append.mp h with h | h
      · exact absurd h hv
      · exact absurd h ht
    · simp at h
  · by_cases hc : ((valEval env s).loss < s.best_val_loss ∨
        env.config.always_save_checkpoint = true) ∧ 0 < it
    · rw [if_pos hc] at h
      simp at h
      exact h
    · rw [if_neg hc] at h
      simp at h

lemma runIter_saveCkpt (env : Env) (s : LoopState) (it j : Nat) (c : Checkpoint)
    (h : Event.saveCkptE j c ∈ (runIter env s it).events) :
    j = it ∧ ∃ st q, c = mkCheckpoint st it q env.config := by
  have hu : Event.saveCkptE j c ∉ (updatePhase env s it).events :=
    not_mem_of_filter_nil (filter_saveCkpt_updatePhase env s it) rfl
  by_cases h1 : it % env.config.eval_interval = 0
  · rw [runIter_eval env s it h1] at h
    rcases List.mem_append.mp h with h | h
    · exact absurd h hu
    · obtain ⟨hj, hc⟩ := evalPhase_saveCkpt env _ it j c h
      exact ⟨hj, _, _, hc⟩
  · by_cases h2 : it % env.config.log_interval = 0
    · rw [runIter_log env s it h1 h2] at h
      rcases List.mem_append.mp h with h | h
      · exact absurd h hu
      · simp [logPhase] at h
    · rw [runIter_none env s it h1 h2] at h
      exact absurd h hu

lemma runLoop_saveCkpt (env : Env) :
    ∀ its s j c, Event.saveCkptE j c ∈ (runLoop env its s).events →
      ∃ st q, c = mkCheckpoint st j q env.config := by
  intro its
  induction its with
  | nil => intro s j c h; simp [runLoop] at h
  | cons it its ih =>
      intro s j c h
      simp only [runLoop] at h
      rcases List.mem_append.mp h with h | h
      · obtain ⟨hj, st, q, hc⟩ := runIter_saveCkpt env s it j c h
        subst hj
        exact ⟨st, q, hc⟩
      · exact ih _ j c h

lemma mainRun_saveCkpt (env : Env) (j : Nat) (c : Checkpoint)
    (h : Event.saveCkptE j c ∈ (mainRun env).events) :
    ∃ st q, c = mkCheckpoint st j q (configWithDefaults env.config) := by
  simp only [mainRun] at h
  rcases List.mem_append.mp h with h | h
  · rcases List.mem_append.mp h with h | h
    · simp [initEvents] at h
    · exact runLoop_saveCkpt _ _ _ j c h
  · simp at h

/-! ### Evolution of the tracked best validation loss -/

/-- The validation loss the eval branch of iteration `it` computes, starting
from loop state `s` (the estimate runs on the model after that iteration's
update phase). -/
def valLossAt (env : Env) (s : LoopState) (it : Nat) : ℚ :=
  (valEval env (updatePhase env s it).state).loss

/-- The validation losses the loop body of iteration `it` appends to
`val_losses`. -/
def iterValDelta (env : Env) (s : LoopState) (it : Nat) : List ℚ :=
  if it % env.config.eval_interval = 0 then [valLossAt env s it] else []

lemma runIter_val_losses (env : Env) (s : LoopState) (it : Nat) :
    (runIter env s it).state.val_losses = s.val_losses ++ iterValDelta env s it := by
  by_cases h1 : it % env.config.eval_interval = 0
  · rw [runIter_eval env s it h1]
    simp [iterValDelta, h1, evalPhase_val_losses, updatePhase_val_losses, valLossAt]
  · by_cases h2 : it % env.config.log_interval = 0
    · rw [runIter_log env s it h1 h2]
      simp [iterValDelta, h1, logPhase, updatePhase_val_losses]
    · rw [runIter_none env s it h1 h2]
      simp [iterValDelta, h1, updatePhase_val_losses]

lemma runIter_best (env : Env) (s : LoopState) (it : Nat)
    (hA : env.config.always_save_checkpoint = false) :
    (runIter env s it).state.best_val_loss
      = (iterValDelta env s it).foldl min s.best_val_loss := by
  by_cases h1 : it % env.config.eval_interval = 0
  · rw [runIter_eval env s it h1]
    rw [evalPhase_best, updatePhase_best]
    have hval : (valEval env (updatePhase env s it).state).loss = valLossAt env s it := rfl
    rw [hval]
    simp only [iterValDelta, if_pos h1, List.foldl_cons, List.foldl_nil, hA]
    by_cases hv : valLossAt env s it < s.best_val_loss
    · rw [if_pos (Or.inl hv), min_eq_right (le_of_lt hv)]
    · have h2 : ¬ (valLossAt env s it < s.best_val_loss ∨ false = true) := by
        simp [hv]
      rw [if_neg h2, min_eq_left (le_of_not_lt hv)]
  · by_cases h2 : it % env.config.log_interval = 0
    · rw [runIter_log env s it h1 h2]
      simp [iterValDelta, h1, logPhase_best, updatePhase_best]
    · rw [runIter_none env s it h1 h2]
      simp [iterValDelta, h1, updatePhase_best]

lemma le_foldl_min (l : List ℚ) : ∀ a : ℚ, l.foldl min a ≤ a := by
  induction l with
  | nil => intro a; simp
  | cons x l ih =>
      intro a
      calc List.foldl min (min a x) l ≤ min a x := ih (min a x)
        _ ≤ a := min_le_left a x

lemma runIter_best_le (env : Env) (s : LoopState) (it : Nat)
    (hA : env.config.always_save_checkpoint = false) :
    (runIter env s it).state.best_val_loss ≤ s.best_val_loss := by
  rw [runIter_best env s it hA]
  exact le_foldl_min _ _

lemma runLoop_best (env : Env) (hA : env.config.always_save_checkpoint = false)
    (b0 : ℚ) :
    ∀ its s, s.best_val_loss = s.val_losses.foldl min b0 →
      (runLoop env its s).state.best_val_loss
        = (runLoop env its s).state.val_losses.foldl min b0 := by
  intro its
  induction its with
  | nil => intro s h; simpa [runLoop] using h
  | cons it its ih =>
      intro s h
      simp only [runLoop]
      apply ih
      rw [runIter_best env s it hA, runIter_val_losses, List.foldl_append, ← h]

lemma mainRun_best (env : Env) (hA : env.config.always_save_checkpoint = false) :
    (mainRun env).state.best_val_loss
      = (mainRun env).state.val_losses.foldl min (initialBest env.config) := by
  simp only [mainRun]
  exact runLoop_best { env with config := configWithDefaults env.config } hA
    (initialBest env.config) (iterList (configWithDefaults env.config))
    (initState { env with config := configWithDefaults env.config }) rfl

/-! ### The disabled scaler against plain unscaled training -/

/-- Result of the unscaled-accumulation reference loop. -/
structure AccumUOut where
  model : Model
  cur : Batch
  nextB : Batch
  pos : Nat

/-- Reference definition written from the claim's words: gradient
accumulation with no loss scaling at all (plain `loss.backward()`). -/
def accumUnscaled (env : Env) : Nat → Model → Batch → Batch → Nat → AccumUOut
  | 0, m, cur, nb, pos => { model := m, cur := cur, nextB := nb, pos := pos }
  | Nat.succ k, m, _cur, nb, pos =>
      let b := forwardBatch env m nb
      let g2 : ℚ := m.grads.getD 0 + env.gradFn m.params nb.tokens nb.labels
      accumUnscaled env k { m with grads := some g2 } b (env.trainBatchAt pos) (pos + 1)

/-- Reference definition written from the claim's words: one update phase of
plain unscaled training - scheduled lr, unscaled backward passes, optional
gradient clipping, a bare `optimizer.step()`, and a gradient flush, with no
scaler anywhere. -/
def updatePhaseUnscaled (env : Env) (s : LoopState) (it : Nat) : LoopState :=
  let cfg := env.config
  let lr := env.lr_scheduler it
  let opt1 : Optimizer :=
    { s.optimizer with param_groups := lrUpdatedGroups s.optimizer.param_groups lr }
  let a := accumUnscaled env cfg.gradient_accumulation_steps
    s.model s.curBatch s.nextBatch s.trainPos
  let m2 := if cfg.grad_clip = 0 then a.model else clip_grad_norm env cfg.grad_clip a.model
  let r := optimizer_step env opt1 m2
  let m4 : Model := { r.2 with grads := none }
  { s with model := m4, optimizer := r.1, curBatch := a.cur,
           nextBatch := a.nextB, trainPos := a.pos }

lemma accumLoop_disabled (env : Env) (it : Nat) (sc : GradScaler)
    (h : sc.enabled = false) :
    ∀ k m cur nb pos,
      (accumLoop env it sc k m cur nb pos).model = (accumUnscaled env k m cur nb pos).model ∧
      (accumLoop env it sc k m cur nb pos).cur = (accumUnscaled env k m cur nb pos).cur ∧
      (accumLoop env it sc k m cur nb pos).nextB = (accumUnscaled env k m cur nb pos).nextB ∧
      (accumLoop env it sc k m cur nb pos).pos = (accumUnscaled env k m cur nb pos).pos := by
  intro k
  induction k with
  | zero => intro m cur nb pos; exact ⟨rfl, rfl, rfl, rfl⟩
  | succ k ih =>
      intro m cur nb pos
      have hf : scalerScaleFactor sc = 1 := by simp [scalerScaleFactor, h]
      simp only [accumLoop, accumUnscaled, hf, one_mul]
      exact ih _ _ _ _

lemma updatePhase_disabled (env : Env) (s : LoopState) (it : Nat)
    (h : s.scaler.enabled = false) :
    (updatePhase env s it).state = updatePhaseUnscaled env s it := by
  obtain ⟨e1, e2, e3, e4⟩ := accumLoop_disabled env it s.scaler h
    env.config.gradient_accumulation_steps s.model s.curBatch s.nextBatch s.trainPos
  by_cases hc : env.config.grad_clip = 0 <;>
    simp [updatePhase, updatePhaseUnscaled, hc, h, scaler_unscale, scaler_step,
      scaler_update, e1, e2, e3, e4]

/-! ### Counting the forward/backward passes of one iteration -/

/-- Does the event record a training forward pass? -/
def isFwdTrainB : Event → Bool
  | Event.forwardTrainE _ _ => true
  | _ => false

/-- Does the event record a backward pass? -/
def isBwdB : Event → Bool
  | Event.backwardE _ _ => true
  | _ => false

lemma accumEvents_count_fwd (env : Env) (it : Nat) (sc : GradScaler) (p : ℚ)
    (tr : Bool) : ∀ nb pos k,
      ((accumEvents env it sc p tr nb pos k).filter isFwdTrainB).length = k := by
  intro nb pos k
  induction k generalizing nb pos with
  | zero => rfl
  | succ k ih => simp [accumEvents, isFwdTrainB, ih]

lemma accumEvents_count_bwd (env : Env) (it : Nat) (sc : GradScaler) (p : ℚ)
    (tr : Bool) : ∀ nb pos k,
      ((accumEvents env it sc p tr nb pos k).filter isBwdB).length = k := by
  intro nb pos k
  induction k generalizing nb pos with
  | zero => rfl
  | succ k ih => simp [accumEvents, isBwdB, ih]

end Train

namespace Train

/-! ### Concrete instances used by counterexamples and witnesses -/

lemma evalEvents_mem_false (tr : Bool) :
    ∀ k e, e ∈ evalEvents tr false k → e = Event.forwardEvalE false tr := by
  intro k
  induction k with
  | zero => intro e h; simp [evalEvents] at h
  | succ k ih =>
      intro e h
      rw [evalEvents] at h
      rcases List.mem_cons.mp h with h | h
      · exact h
      · rcases List.mem_append.mp h with h | h
        · simp at h
        · exact ih e h

/-- A trivial batch used by the concrete runs. -/
def zeroBatch : Batch := { tokens := 0, labels := 0, logits := 0, loss := 0 }

/-- A tiny fresh-run config: one iteration, evaluation every iteration, one
accumulation step, one eval batch, no resume fields, saving only on
improvement. -/
def cexCfg : Config :=
  { dtype := "float32", learning_rate := 0, weight_decay := 0, beta1 := 0, beta2 := 0,
    grad_clip := 0, gradient_accumulation_steps := 1, max_iters := 1, eval_interval := 1,
    log_interval := 1, eval_iters := 1, always_save_checkpoint := false, out_dir := "out",
    iter_num := none, best_val_loss := none }

/-- A concrete environment around `cexCfg`: every batch loss is 1, all
framework callbacks are trivial. -/
def cexEnv : Env :=
  { config := cexCfg,
    trainBatchAt := fun _ => zeroBatch,
    valBatchAt := fun _ => zeroBatch,
    lossFn := fun _ _ _ => 1, logitsFn := fun _ _ _ => 0, gradFn := fun _ _ _ => 0,
    rougeFn := fun _ => 0, lr_scheduler := fun _ => 0,
    optimizerUpdate := fun st _ _ p => (st, p), clipFn := fun _ g => g,
    growthFn := fun x => x, initParams := 0, initOptState := 0 }

/-- The same environment with two iterations and `always_save_checkpoint`
on, so the second evaluation writes a checkpoint. -/
def wEnv : Env :=
  { cexEnv with config := { cexCfg with max_iters := 2, always_save_checkpoint := true } }

/-- A concrete model in training mode with flushed gradients. -/
def mW : Model := { params := 0, grads := none, training := true }

/-- A concrete disabled scaler. -/
def scW : GradScaler := { enabled := false, scaleFactor := 1, alreadyUnscaled := false }

/-- A concrete one-group optimizer. -/
def optW : Optimizer := { param_groups := [{ lr := 0 }], optState := 0 }

/-- A concrete loop state with the default initial best loss. -/
def sW : LoopState :=
  { model := mW, optimizer := optW, scaler := scW,
    best_val_loss := 1000000000, train_losses := [], val_losses := [],
    curBatch := zeroBatch, nextBatch := zeroBatch, trainPos := 1, valPos := 0 }

end Train

namespace Train

/-! ### The claims -/

/-- C1, counterexample: in a fresh run (initial best 1e9), the evaluation
at iteration 0 yields validation loss 1, strictly below the current best,
and the tracked best is updated to 1 - yet no weight write and no
checkpoint-bundle write appears anywhere in the run's trace, because the
save is guarded by `it > 0`.  This refutes the claim as stated. -/
theorem c1_counterexample :
    Event.evalE 0 1 1 ∈ (mainRun cexEnv).events ∧
    (1 : ℚ) < 1000000000 ∧
    (initState { cexEnv with config := configWithDefaults cexEnv.config }).best_val_loss
      = 1000000000 ∧
    (mainRun cexEnv).state.best_val_loss = 1 ∧
    (mainRun cexEnv).events.filter isSaveB = [] := by
  decide

/-- C1 (amended): whenever the evaluation at a loop iteration `it > 0`
yields a validation loss strictly below the current best, the model
weights and the checkpoint bundle are both written in that same iteration
(at iteration 0 the best is updated but nothing is written). -/
theorem c1_checkpoint_on_improvement (env : Env) (s : LoopState) (it : Nat)
    (he : it % env.config.eval_interval = 0)
    (himp : valLossAt env s it < s.best_val_loss)
    (hpos : 0 < it) :
    Event.saveWeightsE it env.config.out_dir ∈ (runIter env s it).events ∧
    ∃ ck, Event.saveCkptE it ck ∈ (runIter env s it).events := by
  rw [runIter_eval env s it he]
  have hcond : ((valEval env (updatePhase env s it).state).loss <
      (updatePhase env s it).state.best_val_loss ∨
      env.config.always_save_checkpoint = true) ∧ 0 < it := by
    refine ⟨Or.inl ?_, hpos⟩
    rw [updatePhase_best]
    exact himp
  constructor
  · apply List.mem_append_right
    rw [evalPhase_events, if_pos hcond]
    apply List.mem_append_right
    simp
  · refine ⟨mkCheckpoint (updatePhase env s it).state.optimizer.optState it
      (valEval env (updatePhase env s it).state).loss env.config, ?_⟩
    apply List.mem_append_right
    rw [evalPhase_events, if_pos hcond]
    apply List.mem_append_right
    simp

/-- C1 witness: the amended theorem applied at a concrete improving
evaluation at iteration 1. -/
theorem c1_checkpoint_on_improvement_witness :
    (1 % cexEnv.config.eval_interval = 0 ∧
      valLossAt cexEnv sW 1 < sW.best_val_loss ∧ 0 < 1) ∧
    (Event.saveWeightsE 1 cexEnv.config.out_dir ∈ (runIter cexEnv sW 1).events ∧
      ∃ ck, Event.saveCkptE 1 ck ∈ (runIter cexEnv sW 1).events) :=
  ⟨⟨by decide, by decide, by decide⟩,
   c1_checkpoint_on_improvement cexEnv sW 1 (by decide) (by decide) (by decide)⟩

end Train

namespace Train

/-- C2: for `0 ≤ iter_num ≤ max_iters` the run records exactly
`max_iters - iter_num` optimizer steps (one per loop iteration); within an
iteration the update phase is the lr assignment, exactly
`gradient_accumulation_steps` forward/backward pairs, the optional clip,
and the single `scaler.step` / `scaler.update` / `zero_grad` tail; and,
starting from flushed gradients, the gradient standing when the step runs
is the sum of the scaled per-batch loss gradients. -/
theorem c2_steps_and_accumulation (env : Env) (s : LoopState) (it : Nat)
    (h0 : startIter env.config ≤ env.config.max_iters)
    (hg : s.model.grads = none) :
    countOptSteps (mainRun env).events
      = env.config.max_iters - startIter env.config ∧
    countOptSteps (runIter env s it).events = 1 ∧
    (updatePhase env s it).events
      = Event.setLRE it (env.lr_scheduler it) ::
          (accumEvents env it s.scaler s.model.params s.model.training s.nextBatch
             s.trainPos env.config.gradient_accumulation_steps ++
           (if env.config.grad_clip = 0 then [] else [Event.clipE it]) ++
           [Event.optStepE it, Event.scalerUpdateE it, Event.zeroGradE it]) ∧
    ((accumEvents env it s.scaler s.model.params s.model.training s.nextBatch
        s.trainPos env.config.gradient_accumulation_steps).filter isFwdTrainB).length
      = env.config.gradient_accumulation_steps ∧
    ((accumEvents env it s.scaler s.model.params s.model.training s.nextBatch
        s.trainPos env.config.gradient_accumulation_steps).filter isBwdB).length
      = env.config.gradient_accumulation_steps ∧
    (accumLoop env it s.scaler env.config.gradient_accumulation_steps s.model
        s.curBatch s.nextBatch s.trainPos).model.grads
      = (if env.config.gradient_accumulation_steps = 0 then none
         else some (gradSum env s.scaler s.model.params s.nextBatch s.trainPos
             env.config.gradient_accumulation_steps)) := by
  refine ⟨countOptSteps_mainRun env, countOptSteps_runIter env s it,
    updatePhase_events env s it,
    accumEvents_count_fwd env it s.scaler s.model.params s.model.training
      s.nextBatch s.trainPos env.config.gradient_accumulation_steps,
    accumEvents_count_bwd env it s.scaler s.model.params s.model.training
      s.nextBatch s.trainPos env.config.gradient_accumulation_steps, ?_⟩
  rw [accumLoop_grads, hg]
  by_cases hk : env.config.gradient_accumulation_steps = 0 <;> simp [hk]

/-- C2 witness: the concrete fresh run performs `1 - 0` optimizer steps. -/
theorem c2_steps_and_accumulation_witness :
    (startIter cexEnv.config ≤ cexEnv.config.max_iters ∧ sW.model.grads = none) ∧
    countOptSteps (mainRun cexEnv).events
      = cexEnv.config.max_iters - startIter cexEnv.config :=
  ⟨⟨by decide, by decide⟩,
   (c2_steps_and_accumulation cexEnv sW 0 (by decide) (by decide)).1⟩

/-- C3: every checkpoint bundle recorded as persisted consists of exactly
the four entries "optimizer" (an optimizer state), "iter_num" (the very
iteration at which it was saved), "best_val_loss" (a validation loss), and
"config" (the defaults-applied config mapping), in that order. -/
theorem c3_checkpoint_shape (env : Env) (it : Nat) (c : Checkpoint)
    (h : Event.saveCkptE it c ∈ (mainRun env).events) :
    c.map Prod.fst = [keyOptimizer, keyIterNum, keyBestValLoss, keyConfig] ∧
    c.length = 4 ∧
    ∃ st q, c = mkCheckpoint st it q (configWithDefaults env.config) := by
  obtain ⟨st, q, hc⟩ := mainRun_saveCkpt env it c h
  subst hc
  exact ⟨rfl, rfl, st, q, rfl⟩

/-- C3 witness: the checkpoint the two-iteration always-save run writes at
iteration 1 has exactly the four entries. -/
theorem c3_checkpoint_shape_witness :
    (Event.saveCkptE 1 (mkCheckpoint 0 1 1 (configWithDefaults wEnv.config))
        ∈ (mainRun wEnv).events) ∧
    ((mkCheckpoint 0 1 1 (configWithDefaults wEnv.config)).map Prod.fst
        = [keyOptimizer, keyIterNum, keyBestValLoss, keyConfig] ∧
      (mkCheckpoint 0 1 1 (configWithDefaults wEnv.config)).length = 4 ∧
      ∃ st q, mkCheckpoint 0 1 1 (configWithDefaults wEnv.config)
          = mkCheckpoint st 1 q (configWithDefaults wEnv.config)) :=
  ⟨by decide, c3_checkpoint_shape wEnv 1 _ (by decide)⟩

/-- C4: an evaluation is recorded at loop iteration `it` exactly when `it`
lies in `range(iter_num, max_iters)` and `it % eval_interval == 0`; and an
`estimate_loss` call on the validation loader returns the mean of
`eval_iters` per-batch losses, all computed under `no_grad` with the model
gradients untouched. -/
theorem c4_eval_schedule (env : Env) (m : Model) (pos it : Nat)
    (hei : 0 < env.config.eval_interval)
    (h0 : startIter env.config ≤ env.config.max_iters) :
    (hasEvalAt (mainRun env).events it = true ↔
      (startIter env.config ≤ it ∧ it < env.config.max_iters ∧
        it % env.config.eval_interval = 0)) ∧
    (estimate_loss env m env.valBatchAt pos false).loss
      = listMean (evalLossList env m.params env.valBatchAt pos env.config.eval_iters) ∧
    (evalLossList env m.params env.valBatchAt pos env.config.eval_iters).length
      = env.config.eval_iters ∧
    (∀ e ∈ (estimate_loss env m env.valBatchAt pos false).events,
        e = Event.forwardEvalE false false) ∧
    (estimate_loss env m env.valBatchAt pos false).model.grads = m.grads := by
  have hsc : startIter (configWithDefaults env.config) = startIter env.config := by
    simp [startIter, configWithDefaults]
  have hmx : (configWithDefaults env.config).max_iters = env.config.max_iters := rfl
  refine ⟨?_, estimate_loss_loss env m env.valBatchAt pos false,
    evalLossList_length env m.params env.valBatchAt pos env.config.eval_iters, ?_, ?_⟩
  · rw [hasEvalAt_mainRun, List.any_eq_true]
    constructor
    · rintro ⟨i, hi, hp⟩
      simp only [Bool.and_eq_true, decide_eq_true_eq, beq_iff_eq] at hp
      obtain ⟨hmod, rfl⟩ := hp
      rw [iterList] at hi
      have hm := List.mem_range'_1.mp hi
      rw [hsc, hmx] at hm
      refine ⟨hm.1, ?_, hmod⟩
      have := hm.2
      omega
    · rintro ⟨hle, hlt, hmod⟩
      refine ⟨it, ?_, ?_⟩
      · rw [iterList]
        apply List.mem_range'_1.mpr
        rw [hsc, hmx]
        omega
      · simp [hmod]
  · intro e he
    have hev : (estimate_loss env m env.valBatchAt pos false).events
        = evalEvents false false env.config.eval_iters := by
      simp [estimate_loss, evalLoop_events]
    rw [hev] at he
    exact evalEvents_mem_false false env.config.eval_iters e he
  · rw [estimate_loss_model]

/-- C4 witness: the schedule and the estimate characterization at the
concrete fresh run. -/
theorem c4_eval_schedule_witness :
    (0 < cexEnv.config.eval_interval ∧
      startIter cexEnv.config ≤ cexEnv.config.max_iters) ∧
    (hasEvalAt (mainRun cexEnv).events 0 = true ↔
      (startIter cexEnv.config ≤ 0 ∧ 0 < cexEnv.config.max_iters ∧
        0 % cexEnv.config.eval_interval = 0)) ∧
    (estimate_loss cexEnv mW cexEnv.valBatchAt 0 false).loss
      = listMean (evalLossList cexEnv mW.params cexEnv.valBatchAt 0
          cexEnv.config.eval_iters) :=
  ⟨⟨by decide, by decide⟩,
   (c4_eval_schedule cexEnv mW 0 0 (by decide) (by decide)).1,
   (c4_eval_schedule cexEnv mW 0 0 (by decide) (by decide)).2.1⟩

end Train

namespace Train

/-- C5: the forward call `model(batch)` writes the logits and the loss
into the batch (leaving its tokens and labels untouched), and both the
training inner loop and the evaluation loop read the loss from that same
mutated batch after the call: the backward runs on the mutated batch's
scaled `loss` field and the eval loop records the mutated batch's `loss`
field - the forward call's own return value is discarded everywhere. -/
theorem c5_forward_mutates_batch (env : Env) (m : Model) (b : Batch) (it k : Nat)
    (sc : GradScaler) (cur nb : Batch) (pos : Nat) (loader : Nat → Batch)
    (rr : Bool) :
    (forwardBatch env m b).tokens = b.tokens ∧
    (forwardBatch env m b).labels = b.labels ∧
    (forwardBatch env m b).logits = env.logitsFn m.params b.tokens b.labels ∧
    (forwardBatch env m b).loss = env.lossFn m.params b.tokens b.labels ∧
    (accumLoop env it sc (k + 1) m cur nb pos).events.head?
      = some (Event.forwardTrainE it m.training) ∧
    (accumLoop env it sc (k + 1) m cur nb pos).events.tail.head?
      = some (Event.backwardE it (scaler_scale sc (forwardBatch env m nb).loss)) ∧
    (evalLoop env loader rr (k + 1) m pos).losses.head?
      = some ((forwardBatch env m (loader pos)).loss) := by
  refine ⟨rfl, rfl, rfl, rfl, ?_, ?_, ?_⟩ <;> simp [accumLoop, evalLoop]

/-- C6: at every loop iteration, the scheduled learning rate
`lr_scheduler it` is written into every optimizer parameter group, the lr
assignment is the first event of the update phase and the optimizer-step
event comes after it, and every parameter group of the optimizer resulting
from the step still carries that learning rate. -/
theorem c6_lr_schedule (env : Env) (s : LoopState) (it : Nat) :
    (∀ g ∈ lrUpdatedGroups s.optimizer.param_groups (env.lr_scheduler it),
        g.lr = env.lr_scheduler it) ∧
    (∀ g ∈ (updatePhase env s it).state.optimizer.param_groups,
        g.lr = env.lr_scheduler it) ∧
    ∃ tl, (updatePhase env s it).events
        = Event.setLRE it (env.lr_scheduler it) :: tl ∧ Event.optStepE it ∈ tl := by
  refine ⟨lrUpdatedGroups_lr _ _, ?_, ?_⟩
  · intro g hg
    rw [updatePhase_optimizer_groups] at hg
    exact lrUpdatedGroups_lr _ _ g hg
  · refine ⟨_, updatePhase_events env s it, ?_⟩
    apply List.mem_append_right
    simp

/-- The training-loop segment of `main`'s trace. -/
def loopEvents (env : Env) : List Event :=
  (runLoop { env with config := configWithDefaults env.config }
    (iterList (configWithDefaults env.config))
    (initState { env with config := configWithDefaults env.config })).events

/-- C7: `main` is a fixed linear procedure - its trace is exactly the init
prelude (config loaded before the model, which precedes the optimizer and
the scheduler), then the loop's events, then the single final plot; the
prelude and the plot tail contain no evaluation and no checkpoint write,
and the plot is the last event of every run. -/
theorem c7_linear_phases (env : Env) :
    (mainRun env).events = initEvents ++ loopEvents env ++ [Event.plotE] ∧
    initEvents.indexOf Event.loadConfigE < initEvents.indexOf Event.initModelE ∧
    initEvents.indexOf Event.initModelE < initEvents.indexOf Event.initOptimizerE ∧
    initEvents.indexOf Event.initOptimizerE < initEvents.indexOf Event.initSchedulerE ∧
    initEvents.filter isEvalB = [] ∧
    initEvents.filter isSaveB = [] ∧
    [Event.plotE].filter isEvalB = [] ∧
    [Event.plotE].filter isSaveB = [] ∧
    (mainRun env).events.getLast? = some Event.plotE := by
  refine ⟨rfl, by decide, by decide, by decide, by decide, by decide, by decide,
    by decide, ?_⟩
  show (initEvents ++ loopEvents env ++ [Event.plotE]).getLast? = some Event.plotE
  rw [List.getLast?_concat]

end Train

namespace Train

/-- C8: the gradient scaler is enabled iff the configured dtype is
"float16"; for a disabled scaler every operation the loop uses is a no-op
wrapper - `scale` returns its argument, `unscale_` changes nothing, `step`
is a bare `optimizer.step()`, `update` changes nothing - and the whole
update phase of an iteration equals the plain unscaled training step. -/
theorem c8_scaler_noop (env : Env) (sc : GradScaler) (v : ℚ) (opt : Optimizer)
    (m : Model) (s : LoopState) (it : Nat)
    (h : sc.enabled = false) (hs : s.scaler.enabled = false) :
    (init_scaler env.config).enabled = (env.config.dtype == "float16") ∧
    scaler_scale sc v = v ∧
    scaler_unscale sc m = (sc, m) ∧
    scaler_step env sc opt m = (sc, optimizer_step env opt m) ∧
    scaler_update env sc = sc ∧
    (updatePhase env s it).state = updatePhaseUnscaled env s it := by
  refine ⟨rfl, ?_, ?_, ?_, ?_, updatePhase_disabled env s it hs⟩
  · simp [scaler_scale, h]
  · simp [scaler_unscale, h]
  · simp [scaler_step, h]
  · simp [scaler_update, h]

/-- C8 witness: the no-op equations and the unscaled-step equality at a
concrete disabled scaler and loop state. -/
theorem c8_scaler_noop_witness :
    (scW.enabled = false ∧ sW.scaler.enabled = false) ∧
    ((init_scaler cexEnv.config).enabled = (cexEnv.config.dtype == "float16") ∧
      scaler_scale scW 2 = 2 ∧
      scaler_unscale scW mW = (scW, mW) ∧
      scaler_step cexEnv scW optW mW = (scW, optimizer_step cexEnv optW mW) ∧
      scaler_update cexEnv scW = scW ∧
      (updatePhase cexEnv sW 0).state = updatePhaseUnscaled cexEnv sW 0) :=
  ⟨⟨rfl, rfl⟩, c8_scaler_noop cexEnv scW 2 optW mW sW 0 rfl rfl⟩

/-- C9: with `always_save_checkpoint` false, each loop iteration appends
its validation observation (empty on non-eval iterations) and updates the
best to the min-fold of the old best over the new observations, so the
best never increases; over a whole run the final best equals the min of
the initial best and every validation loss observed. -/
theorem c9_best_val_loss_min (env : Env) (s : LoopState) (it : Nat)
    (hA : env.config.always_save_checkpoint = false) :
    (runIter env s it).state.val_losses = s.val_losses ++ iterValDelta env s it ∧
    (runIter env s it).state.best_val_loss
      = (iterValDelta env s it).foldl min s.best_val_loss ∧
    (runIter env s it).state.best_val_loss ≤ s.best_val_loss ∧
    (mainRun env).state.best_val_loss
      = (mainRun env).state.val_losses.foldl min (initialBest env.config) ∧
    (mainRun env).state.best_val_loss ≤ initialBest env.config := by
  refine ⟨runIter_val_losses env s it, runIter_best env s it hA,
    runIter_best_le env s it hA, mainRun_best env hA, ?_⟩
  rw [mainRun_best env hA]
  exact le_foldl_min _ _

/-- C9 witness: the invariant at the concrete fresh run (one evaluation,
observed loss 1, final best `min 1e9 1 = 1`). -/
theorem c9_best_val_loss_min_witness :
    cexEnv.config.always_save_checkpoint = false ∧
    ((runIter cexEnv sW 0).state.val_losses
        = sW.val_losses ++ iterValDelta cexEnv sW 0 ∧
      (runIter cexEnv sW 0).state.best_val_loss
        = (iterValDelta cexEnv sW 0).foldl min sW.best_val_loss ∧
      (runIter cexEnv sW 0).state.best_val_loss ≤ sW.best_val_loss ∧
      (mainRun cexEnv).state.best_val_loss
        = (mainRun cexEnv).state.val_losses.foldl min (initialBest cexEnv.config) ∧
      (mainRun cexEnv).state.best_val_loss ≤ initialBest cexEnv.config) :=
  ⟨rfl, c9_best_val_loss_min cexEnv sW 0 rfl⟩

/-- C10: `estimate_loss` returns the model exactly as it received it but
in training mode, on both return paths (ROUGE requested or not); every
event it emits is a `no_grad` forward with the model in eval mode, or a
ROUGE computation. -/
theorem c10_estimate_loss_train_mode (env : Env) (m : Model)
    (loader : Nat → Batch) (pos : Nat) (rr : Bool) :
    (estimate_loss env m loader pos rr).model.training = true ∧
    (estimate_loss env m loader pos rr).model = { m with training := true } ∧
    ∀ e ∈ (estimate_loss env m loader pos rr).events,
      e = Event.forwardEvalE false false ∨ e = Event.rougeE := by
  refine ⟨?_, estimate_loss_model env m loader pos rr, ?_⟩
  · rw [estimate_loss_model]
  · exact fun e he => estimate_loss_events_mem env m loader pos rr e he

end Train
